import Mathlib

/-!
Shallow embedding of the jccc streaming tokenizer (src/src/lexer/lex.c).

The stream (`FILE *fp`) is modelled as the list of characters remaining to be
read: `fgetc`/`getc` pops the head, `EOF` is the empty list, and
`ungetc`/`fseek(fp, -1, SEEK_CUR)` puts the just-read character back on the
front.  `ungetc(EOF, fp)` is a no-op, as in C.

The header `lex.h` is not part of the sources; the token-type enum is
reconstructed from the constructor names used in `lex.c`, and the two
capacity constants `TOKEN_LENGTH` and `TOKEN_PUTBACKS` are kept as explicit
parameters (`tokLen`, `N`) of the functions that read them.

`lex` and `unlex` in C return `0` on success and `-1` on error after printing
a diagnostic; the embedding returns `Except LexError _`, with one `LexError`
constructor per distinct `PRINT_ERROR` site (named after the spec's error
taxonomy in §7).  On an error return the C code leaves the caller's `Token`
and stream in a state the caller must not use; the embedding's error carries
no lexer, modelling that contract.
-/

namespace Jccc

/-- Token kinds.  The enum is declared in `lex.h` (not in the sources); its
variants are reconstructed from the constructor names used in `lex.c`. -/
inductive TokenType where
  | TT_LITERAL
  | TT_IDENTIFIER
  | TT_OPAREN
  | TT_CPAREN
  | TT_OBRACE
  | TT_CBRACE
  | TT_OBRACKET
  | TT_CBRACKET
  | TT_SEMI
  | TT_NEWLINE
  | TT_EOF
  | TT_NO_TOKEN
deriving DecidableEq, Repr

/-- A token: `contents` models the NUL-terminated text in the fixed
`char contents[TOKEN_LENGTH]` array, `length` the `int length` field and
`type` the `TokenType type` field. -/
structure Token where
  contents : List Char
  length : Nat
  type : TokenType
deriving DecidableEq, Repr

/-- The lexer state: the remaining character stream (`FILE *fp`) and the
pushback stack `Token unlexed[TOKEN_PUTBACKS]` with `int unlexed_count`.
The stack is modelled most-recently-pushed first: the array cell
`unlexed[unlexed_count - 1]` is the head of `unlexed`. -/
structure Lexer where
  stream : List Char
  unlexed : List Token
deriving DecidableEq, Repr

/-- Error outcomes: one constructor per distinct `PRINT_ERROR`-then-
`return -1` site in `lex.c`, named after the spec's §7 error kinds. -/
inductive LexError where
  | InternalInvariantViolation
  | IdentifierTooLong
  | PushbackBufferFull
deriving DecidableEq, Repr

/-- Is a character in the given string?  (`in_string`, lex.c lines 10-16.) -/
def in_string (c : Char) : List Char → Bool
  | [] => false
  | d :: ds => if d = c then true else in_string c ds

/-- The single-character token set, `char single_char_tokens[] = "(){}[];"`
(lex.c line 19). -/
def single_char_tokens : List Char := ['(', ')', '{', '}', '[', ']', ';']

/-- Alphanumeric, underscore or dot (`is_valid_numeric_or_id_char`,
lex.c lines 21-23).  `isalnum` in the C locale is exactly
`Char.isAlphanum`. -/
def is_valid_numeric_or_id_char (c : Char) : Bool :=
  c.isAlphanum || c = '_' || c = '.'

/-- The scanning loop of `skip_to_token` (lex.c lines 152-173).  `prev` is
the previously read character, `in_block` the comment state (0 normal,
1 line comment, 2 block comment) and `pass` the suppression counter.
`some s` models `return 0` after `fseek(fp, -1, SEEK_CUR)` (the stopping
character is back on the front of `s`); `none` models `return -1` at EOF. -/
def skipLoop (prev : Char) (in_block : Nat) (pass : Int) : List Char → Option (List Char)
  | [] => none
  | cur :: rest =>
    let ib : Option Nat :=
      if cur = '/' ∧ prev = '/' ∧ in_block = 0 then some 1
      else if cur = '*' ∧ prev = '/' ∧ in_block = 0 then some 2
      else if (in_block = 1 ∧ cur = '\n') ∨
              (in_block = 2 ∧ cur = '/' ∧ prev = '*' ∧ pass ≤ 0) then some 0
      else if prev = '/' ∧ ¬(cur = '*' ∨ cur = '/') ∧ in_block = 0 then none
      else some in_block
    let ps : Int := if cur = '*' ∧ prev = '/' ∧ in_block = 0 then 2 else pass
    match ib with
    | none => some (cur :: rest)
    | some ib2 =>
      if ¬(cur = ' ' ∨ cur = '\t' ∨ cur = '/') ∧ ib2 = 0 then some (cur :: rest)
      else skipLoop cur ib2 (ps - 1) rest

/-- `skip_to_token` (lex.c lines 136-176): `some s` is `return 0` with `s`
the stream left after the final one-character rewind; `none` is `return -1`
(stream exhausted before a token start was found). -/
def skip_to_token (s : List Char) : Option (List Char) :=
  match s with
  | [] => none
  | cur :: rest =>
    if ¬(cur = ' ' ∨ cur = '\t' ∨ cur = '/') then some (cur :: rest)
    else skipLoop cur 0 0 rest

/-- `ttype_one_char` (lex.c lines 178-197). -/
def ttype_one_char (c : Char) : TokenType :=
  if c = '(' then .TT_OPAREN
  else if c = ')' then .TT_CPAREN
  else if c = '{' then .TT_OBRACE
  else if c = '}' then .TT_CBRACE
  else if c = '[' then .TT_OBRACKET
  else if c = ']' then .TT_CBRACKET
  else if c = ';' then .TT_SEMI
  else .TT_NO_TOKEN

/-- The character loop of `ttype_many_chars` (lex.c lines 215-241),
accumulating `count_us` and `all_numeric`.  `none` models the early
`return TT_LITERAL` on a dot or a quote character; `some` returns the final
accumulator values.  (`count_fs` is also accumulated by the C loop but never
read afterwards, so it is not modelled.) -/
def ttypeLoop : List Char → Nat → Bool → Option (Nat × Bool)
  | [], count_us, all_numeric => some (count_us, all_numeric)
  | c :: rest, count_us, all_numeric =>
    if c = '.' then none
    else
      let count_us := if c = 'u' then count_us + 1 else count_us
      let all_numeric := if (c > '9' ∨ c < '0') ∧ c ≠ 'u' then false else all_numeric
      if c = '\'' ∨ c = '"' then none
      else ttypeLoop rest count_us all_numeric

/-- `ttype_many_chars` (lex.c lines 199-256).  The `contents == NULL` check
has no counterpart (lists are never NULL); `contents[i - 1]` with `i` the
string length is the last character. -/
def ttype_many_chars (contents : List Char) : TokenType :=
  match ttypeLoop contents 0 true with
  | none => .TT_LITERAL
  | some (count_us, all_numeric) =>
    if all_numeric then
      if count_us = 1 ∧ contents.getLast? = some 'u' then .TT_LITERAL
      else if count_us = 0 then .TT_LITERAL
      else .TT_IDENTIFIER
    else .TT_IDENTIFIER

/-- `ttype_from_string` (lex.c lines 258-273). -/
def ttype_from_string (contents : List Char) : TokenType :=
  if contents.length = 1 then
    match contents with
    | c :: _ =>
      if ttype_one_char c ≠ .TT_NO_TOKEN then ttype_one_char c
      else ttype_many_chars contents
    | [] => ttype_many_chars contents
  else ttype_many_chars contents

/-- The token of the end-of-file path (`lex.c` lines 42-47): contents
`"[end of file]"`, length `strlen` of it, type `TT_EOF`. -/
def eof_token : Token :=
  { contents := "[end of file]".toList
    length := "[end of file]".length
    type := .TT_EOF }

/-- The token of the newline path (`lex.c` lines 58-63): contents
`"[newline]"`, length `strlen` of it, type `TT_NEWLINE`. -/
def newline_token : Token :=
  { contents := "[newline]".toList
    length := "[newline]".length
    type := .TT_NEWLINE }

/-- The identifier/number accumulation loop of `lex` (lex.c lines 94-107)
followed by the epilogue of lines 109-110.  `acc` is the token text built so
far (`t->contents[0..pos)`), `pos` the write position.  On a non-id
character (or EOF) the loop breaks and the character is `ungetc`-ed, i.e.
left on the returned stream; if `pos` would reach `TOKEN_LENGTH - 1`
(`tokLen - 1`) while another id character is pending, the C code prints the
identifier-too-long diagnostic and returns -1. -/
def lexIdLoop (tokLen : Nat) : List Char → Nat → List Char →
    Except LexError (List Char × Nat × List Char)
  | acc, pos, [] => .ok (acc, pos, [])
  | acc, pos, c :: rest =>
    if ¬ is_valid_numeric_or_id_char c then .ok (acc, pos, c :: rest)
    else if pos ≥ tokLen - 1 then .error .IdentifierTooLong
    else lexIdLoop tokLen (acc ++ [c]) (pos + 1) rest

/-- `lex` (lex.c lines 25-120).  `tokLen` is the `TOKEN_LENGTH` constant
from `lex.h`.  `t0` is the caller's `Token *t` argument before the call: the
fall-through path at the `TODO` (lines 116-118) returns 0 without assigning
`t->length` or `t->type`, so those fields keep the caller's previous values;
every other success path assigns all three fields.  The returned lexer is
the state after the call; error returns model the diagnostic-then-`-1`
paths, after which the caller must not use the token or the lexer. -/
def lex (tokLen : Nat) (l : Lexer) (t0 : Token) : Except LexError (Token × Lexer) :=
  match l.unlexed with
  | t :: ts => .ok (t, { l with unlexed := ts })
  | [] =>
    match (skip_to_token l.stream).getD [] with
    | [] => .ok (eof_token, { l with stream := [] })
    | init :: rest =>
      if init = ' ' ∨ init = '\t' then .error .InternalInvariantViolation
      else if init = '\n' then .ok (newline_token, { l with stream := rest })
      else if in_string init single_char_tokens then
        .ok ({ contents := [init], length := 1, type := ttype_one_char init },
             { l with stream := rest })
      else if is_valid_numeric_or_id_char init then
        match lexIdLoop tokLen [init] 1 rest with
        | .error e => .error e
        | .ok (cs, pos, rest2) =>
          .ok ({ contents := cs, length := pos, type := ttype_many_chars cs },
               { l with stream := rest2 })
      else
        .ok ({ contents := [init], length := t0.length, type := t0.type },
             { l with stream := rest })

/- note: the C body binds the post-skip stream via `getc`; the embedding
inlines `(skip_to_token l.stream).getD []` as the match scrutinee. -/

/-- `unlex` (lex.c lines 122-134).  `N` is the `TOKEN_PUTBACKS` constant
from `lex.h`.  A full buffer is a diagnostic-then-`-1`; otherwise the token
is copied into `unlexed[unlexed_count]` (the new head of the stack model)
and the count incremented. -/
def unlex (N : Nat) (l : Lexer) (t : Token) : Except LexError Lexer :=
  if l.unlexed.length ≥ N then .error .PushbackBufferFull
  else .ok { l with unlexed := t :: l.unlexed }

/-- Driver: `unlex` each token of `ts` in order, stopping at the first
error, as a caller doing `k` pushbacks would. -/
def unlexAll (N : Nat) : Lexer → List Token → Except LexError Lexer
  | l, [] => .ok l
  | l, t :: ts =>
    match unlex N l t with
    | .error e => .error e
    | .ok l2 => unlexAll N l2 ts

/-- Driver: `k` successive `lex` calls, reusing the same `Token` variable
between calls as a caller would, collecting the tokens produced. -/
def lexSteps (tokLen : Nat) : Nat → Lexer → Token → Except LexError (List Token × Lexer)
  | 0, l, _ => .ok ([], l)
  | k + 1, l, t0 =>
    match lex tokLen l t0 with
    | .error e => .error e
    | .ok (t, l2) =>
      match lexSteps tokLen k l2 t with
      | .error e => .error e
      | .ok (ts, l3) => .ok (t :: ts, l3)

/-- Driver: repeated `lex` calls until the `TT_EOF` token (included in the
output) or an error, reusing the same `Token` variable between calls;
`fuel` bounds the number of calls. -/
def lexMany (tokLen : Nat) : Nat → Lexer → Token → Except LexError (List Token)
  | 0, _, _ => .ok []
  | fuel + 1, l, t0 =>
    match lex tokLen l t0 with
    | .error e => .error e
    | .ok (t, l2) =>
      if t.type = .TT_EOF then .ok [t]
      else
        match lexMany tokLen fuel l2 t with
        | .error e => .error e
        | .ok ts => .ok (t :: ts)

/-! ### Helper lemmas -/

/-- An identifier-class character is none of the special characters `lex`
tests before entering the identifier loop. -/
theorem valid_ne_special (c : Char) (h : is_valid_numeric_or_id_char c = true) :
    c ≠ ' ' ∧ c ≠ '\t' ∧ c ≠ '\n' ∧ c ≠ '/' := by
  refine ⟨?_, ?_, ?_, ?_⟩ <;> (rintro rfl; exact absurd h (by decide))

/-- An identifier-class character is not a single-character token. -/
theorem valid_not_single_char (c : Char) (h : is_valid_numeric_or_id_char c = true) :
    in_string c single_char_tokens = false := by
  simp only [single_char_tokens, in_string]
  split_ifs with h1 h2 h3 h4 h5 h6 h7 <;>
    first
      | rfl
      | (subst_vars; exact absurd h (by decide))

/-- If the first character of the stream is not whitespace or a slash,
`skip_to_token` stops immediately with the stream intact. -/
theorem skip_immediate (c : Char) (rest : List Char)
    (h1 : c ≠ ' ') (h2 : c ≠ '\t') (h3 : c ≠ '/') :
    skip_to_token (c :: rest) = some (c :: rest) := by
  simp [skip_to_token, h1, h2, h3]

/-- The identifier loop errors whenever the pending identifier-class run is
long enough that the write position would reach `tokLen - 1`. -/
theorem lexIdLoop_overflow (tokLen : Nat) (s : List Char) :
    ∀ (acc : List Char) (pos : Nat),
      (∀ c ∈ s, is_valid_numeric_or_id_char c = true) → s ≠ [] →
      tokLen ≤ pos + s.length →
      lexIdLoop tokLen acc pos s = .error .IdentifierTooLong := by
  induction s with
  | nil => intro acc pos _ hne _; exact absurd rfl hne
  | cons c rest ih =>
    intro acc pos hval _ hlen
    have hc : is_valid_numeric_or_id_char c = true := hval c (List.mem_cons_self c rest)
    rw [lexIdLoop, if_neg (by simp [hc])]
    by_cases hp : pos ≥ tokLen - 1
    · rw [if_pos hp]
    · rw [if_neg hp]
      have hr : rest ≠ [] := by
        intro h
        subst h
        simp only [List.length_cons, List.length_nil] at hlen
        omega
      exact ih (acc ++ [c]) (pos + 1)
        (fun d hd => hval d (List.mem_cons_of_mem c hd)) hr
        (by simp only [List.length_cons] at hlen ⊢; omega)

/-- Pushing the tokens of `ts` in order onto a stack with enough room
succeeds and leaves them on the stack most-recently-pushed first. -/
theorem unlexAll_ok (N : Nat) (ts : List Token) :
    ∀ l : Lexer, l.unlexed.length + ts.length ≤ N →
      unlexAll N l ts = .ok { l with unlexed := ts.reverse ++ l.unlexed } := by
  induction ts with
  | nil =>
    intro l _
    simp [unlexAll]
  | cons t ts ih =>
    intro l h
    have hlt : l.unlexed.length < N := by
      simp only [List.length_cons] at h
      omega
    have hu : unlex N l t = .ok { l with unlexed := t :: l.unlexed } := by
      rw [unlex, if_neg (not_le.mpr hlt)]
    simp only [unlexAll, hu]
    rw [ih { l with unlexed := t :: l.unlexed }
          (by simp only [List.length_cons] at h ⊢; omega)]
    simp [List.append_assoc]

/-- Replaying from the pushback stack: `k` successive `lex` calls pop the
`k` topmost tokens in push-stack order without touching the stream. -/
theorem lexSteps_pushback (tokLen : Nat) (us : List Token) :
    ∀ (s : List Char) (rest : List Token) (t0 : Token),
      lexSteps tokLen us.length { stream := s, unlexed := us ++ rest } t0 =
        .ok (us, { stream := s, unlexed := rest }) := by
  induction us with
  | nil => intro s rest t0; simp [lexSteps]
  | cons u us ih =>
    intro s rest t0
    have hl : lex tokLen { stream := s, unlexed := u :: (us ++ rest) } t0 =
        .ok (u, { stream := s, unlexed := us ++ rest }) := rfl
    simp only [List.length_cons, List.cons_append, lexSteps, hl, ih s rest u]

/-- A successful `lex` never grows the pushback stack. -/
theorem lex_unlexed_length (tokLen : Nat) (l : Lexer) (t0 t2 : Token) (l2 : Lexer)
    (h : lex tokLen l t0 = .ok (t2, l2)) :
    l2.unlexed.length ≤ l.unlexed.length := by
  rw [lex] at h
  split at h
  · rename_i t ts hts
    simp only [Except.ok.injEq, Prod.mk.injEq] at h
    obtain ⟨-, rfl⟩ := h
    simp [hts]
  · rename_i hts
    split at h
    · simp only [Except.ok.injEq, Prod.mk.injEq] at h
      obtain ⟨-, rfl⟩ := h
      exact Nat.le_refl _
    · split_ifs at h <;>
        first
          | (simp only [Except.ok.injEq, Prod.mk.injEq] at h;
             obtain ⟨-, rfl⟩ := h; exact Nat.le_refl _)
          | (split at h <;>
               first
                 | (simp only [Except.ok.injEq, Prod.mk.injEq] at h;
                    obtain ⟨-, rfl⟩ := h; exact Nat.le_refl _)
                 | simp at h)

/-! ### Claim theorems -/

/-- Claim C10: the one-character text "u" is classified `TT_LITERAL`, not
`TT_IDENTIFIER`: the character is exempt from the all-numeric test and the
trailing-u branch fires with zero preceding digits. -/
theorem C10_lone_u_is_literal : ttype_many_chars ['u'] = .TT_LITERAL := by decide

/-- Claim C1 (evidence of divergence): on a stream beginning with a quote
character, `lex` does not scan a quoted literal and does not fail with an
unterminated-literal error.  On the unterminated stream `"ab` it returns
success with a token holding only the opening quote and the caller's stale
`length` and `type` fields, leaving `ab` on the stream: the quoted-literal
case is the unimplemented `TODO` fall-through of lex.c lines 116-118. -/
theorem C1_quote_literal_unimplemented (tokLen : Nat) (t0 : Token) :
    lex tokLen { stream := ['"', 'a', 'b'], unlexed := [] } t0 =
      .ok ({ contents := ['"'], length := t0.length, type := t0.type },
           { stream := ['a', 'b'], unlexed := [] }) := rfl

/-- Claim C3 (evidence of divergence): the defensive whitespace check in
`lex` is reachable.  On the stream `/ a` the skip-scanner discards the
standalone slash, rewinds only one character and returns success with the
cursor on the space, so `lex` reads `' '` and fails with the
internal-invariant error. -/
theorem C3_whitespace_check_fires (tokLen : Nat) (t0 : Token) :
    skip_to_token ['/', ' ', 'a'] = some [' ', 'a'] ∧
    lex tokLen { stream := ['/', ' ', 'a'], unlexed := [] } t0 =
      .error .InternalInvariantViolation :=
  ⟨rfl, rfl⟩

/-- Claim C4: a standalone `/` read in the Normal state whose following
character is neither `*` nor `/` is discarded: the scanning loop rewinds by
exactly one character, so the stream handed to the token reader starts at
the character after the slash, and likewise for a slash at the start of the
stream. -/
theorem C4_standalone_slash_discarded (c : Char) (rest : List Char) (pass : Int)
    (h1 : c ≠ '*') (h2 : c ≠ '/') :
    skipLoop '/' 0 pass (c :: rest) = some (c :: rest) ∧
    skip_to_token ('/' :: c :: rest) = some (c :: rest) := by
  have hloop : ∀ p : Int, skipLoop '/' 0 p (c :: rest) = some (c :: rest) := by
    intro p
    simp [skipLoop, h1, h2]
  refine ⟨hloop pass, ?_⟩
  rw [skip_to_token, if_neg (by simp)]
  exact hloop 0

/-- Claim C4, witness: the slash before `a` is discarded and `a` is what the
token reader sees. -/
theorem C4_standalone_slash_discarded_witness :
    skipLoop '/' 0 0 ['a', 'b'] = some ['a', 'b'] ∧
    skip_to_token ['/', 'a', 'b'] = some ['a', 'b'] :=
  C4_standalone_slash_discarded 'a' ['b'] 0 (by decide) (by decide)

/-- Claim C2: a round trip through the pushback buffer.  On any lexer with
room left, `unlex t` succeeds and a following `lex` returns `t` itself
(equal contents, length and kind) and restores the lexer exactly, stream
untouched; more generally, pushing `k ≤ N - size` tokens in order and then
performing `k` `lex` calls replays them in last-in-first-out order and
restores the original lexer. -/
theorem C2_unlex_lex_round_trip (tokLen N : Nat) (l : Lexer) (ts : List Token)
    (t0 : Token) (h : l.unlexed.length + ts.length ≤ N) :
    (∀ t : Token, l.unlexed.length < N →
      unlex N l t = .ok { l with unlexed := t :: l.unlexed } ∧
      lex tokLen { l with unlexed := t :: l.unlexed } t0 = .ok (t, l)) ∧
    unlexAll N l ts = .ok { l with unlexed := ts.reverse ++ l.unlexed } ∧
    lexSteps tokLen ts.length { l with unlexed := ts.reverse ++ l.unlexed } t0 =
      .ok (ts.reverse, l) := by
  rcases l with ⟨s, u⟩
  refine ⟨?_, unlexAll_ok N ts _ h, ?_⟩
  · intro t hlt
    exact ⟨by rw [unlex, if_neg (not_le.mpr hlt)], rfl⟩
  · have hsteps := lexSteps_pushback tokLen ts.reverse s u t0
    rwa [List.length_reverse] at hsteps

/-- Claim C2, witness: two tokens pushed onto an empty pushback stack with
capacity 3 are replayed in reverse push order, restoring the lexer. -/
theorem C2_unlex_lex_round_trip_witness :
    unlexAll 3 { stream := ['z'], unlexed := [] }
        [{ contents := ['a'], length := 1, type := .TT_LITERAL },
         { contents := ['b'], length := 1, type := .TT_IDENTIFIER }] =
      .ok { stream := ['z'],
            unlexed := [{ contents := ['b'], length := 1, type := .TT_IDENTIFIER },
                        { contents := ['a'], length := 1, type := .TT_LITERAL }] } ∧
    lexSteps 32 2
        { stream := ['z'],
          unlexed := [{ contents := ['b'], length := 1, type := .TT_IDENTIFIER },
                      { contents := ['a'], length := 1, type := .TT_LITERAL }] }
        { contents := [], length := 0, type := .TT_NO_TOKEN } =
      .ok ([{ contents := ['b'], length := 1, type := .TT_IDENTIFIER },
            { contents := ['a'], length := 1, type := .TT_LITERAL }],
           { stream := ['z'], unlexed := [] }) := by
  have h := C2_unlex_lex_round_trip 32 3 { stream := ['z'], unlexed := [] }
    [{ contents := ['a'], length := 1, type := .TT_LITERAL },
     { contents := ['b'], length := 1, type := .TT_IDENTIFIER }]
    { contents := [], length := 0, type := .TT_NO_TOKEN } (by decide)
  exact ⟨h.2.1, h.2.2⟩

/-- Claim C5: lexing `a//c\nb` yields exactly `Identifier "a"`, `Newline`,
`Identifier "b"` and then the end-of-input token: the newline terminating
the line comment is itself returned as a Newline token, not discarded. -/
theorem C5_line_comment_newline (tokLen : Nat) (t0 : Token) :
    lexMany tokLen 4 { stream := ['a', '/', '/', 'c', '\n', 'b'], unlexed := [] } t0 =
      .ok [{ contents := ['a'], length := 1, type := .TT_IDENTIFIER },
           newline_token,
           { contents := ['b'], length := 1, type := .TT_IDENTIFIER },
           eof_token] := rfl

/-- Claim C6: on a lexer whose stream is empty (or exhausted) and whose
pushback stack is empty, every `lex` call succeeds with the token whose
contents are `[end of file]`, whose length is that string's length and whose
kind is `TT_EOF`, and leaves the lexer unchanged — so repeated calls return
the same end-of-input token. -/
theorem C6_eof_idempotent (tokLen : Nat) (l : Lexer)
    (hs : l.stream = []) (hu : l.unlexed = []) :
    ∀ t0 : Token,
      lex tokLen l t0 =
        .ok ({ contents := "[end of file]".toList,
               length := "[end of file]".toList.length,
               type := .TT_EOF }, l) := by
  rcases l with ⟨s, u⟩
  cases hs
  cases hu
  intro t0
  rfl

/-- Claim C6, witness: a concrete empty lexer. -/
theorem C6_eof_idempotent_witness :
    lex 32 { stream := [], unlexed := [] }
        { contents := ['x'], length := 1, type := .TT_SEMI } =
      .ok ({ contents := "[end of file]".toList,
             length := "[end of file]".toList.length,
             type := .TT_EOF }, { stream := [], unlexed := [] }) :=
  C6_eof_idempotent 32 { stream := [], unlexed := [] } rfl rfl
    { contents := ['x'], length := 1, type := .TT_SEMI }

/-- Claim C7: an identifier-class run of length `TOKEN_LENGTH` (one more
than the maximal storable token text of `TOKEN_LENGTH - 1` characters)
makes `lex` fail with the identifier-too-long error instead of returning a
partial token. -/
theorem C7_identifier_too_long (tokLen : Nat) (cs : List Char) (t0 : Token)
    (htl : 2 ≤ tokLen) (hlen : cs.length = tokLen)
    (hval : ∀ c ∈ cs, is_valid_numeric_or_id_char c = true) :
    lex tokLen { stream := cs, unlexed := [] } t0 = .error .IdentifierTooLong := by
  cases cs with
  | nil => rw [List.length_nil] at hlen; omega
  | cons c0 rest =>
    have hc0 : is_valid_numeric_or_id_char c0 = true := hval c0 (by simp)
    obtain ⟨hsp, hta, hnl, hsl⟩ := valid_ne_special c0 hc0
    have hsk := skip_immediate c0 rest hsp hta hsl
    have hov : lexIdLoop tokLen [c0] 1 rest = .error .IdentifierTooLong := by
      apply lexIdLoop_overflow tokLen rest [c0] 1
        (fun d hd => hval d (List.mem_cons_of_mem c0 hd))
      · intro h
        subst h
        simp only [List.length_cons, List.length_nil] at hlen
        omega
      · simp only [List.length_cons] at hlen
        omega
    rw [lex]
    simp only [hsk, Option.getD_some]
    rw [if_neg (by simp [hsp, hta]), if_neg hnl,
        if_neg (by simp [valid_not_single_char c0 hc0]), if_pos (by simp [hc0]), hov]

/-- Claim C7, witness: with `TOKEN_LENGTH = 3`, the run `aaa` overflows. -/
theorem C7_identifier_too_long_witness :
    lex 3 { stream := ['a', 'a', 'a'], unlexed := [] }
        { contents := [], length := 0, type := .TT_NO_TOKEN } =
      .error .IdentifierTooLong :=
  C7_identifier_too_long 3 ['a', 'a', 'a']
    { contents := [], length := 0, type := .TT_NO_TOKEN }
    (by decide) (by decide) (by decide)

/-- Proof-side abbreviation: the final value of the `count_us` accumulator
of `ttype_many_chars` on a text without early return. -/
def numU (cs : List Char) : Nat :=
  (cs.filter (fun c => decide (c = 'u'))).length

/-- Proof-side abbreviation: the final value of the `all_numeric`
accumulator of `ttype_many_chars` on a text without early return. -/
def allNumB (cs : List Char) : Bool :=
  cs.all (fun c => !decide ((c > '9' ∨ c < '0') ∧ c ≠ 'u'))

/-- The code's per-character numeric test, negated, says digit-or-u. -/
theorem not_numeric_iff (c : Char) :
    ¬((c > '9' ∨ c < '0') ∧ c ≠ 'u') ↔ ('0' ≤ c ∧ c ≤ '9') ∨ c = 'u' := by
  have h9 : ¬('9' < c) ↔ c ≤ '9' := not_lt
  have h0 : ¬(c < '0') ↔ '0' ≤ c := not_lt
  constructor
  · intro h
    by_cases hu : c = 'u'
    · exact Or.inr hu
    · have hno : ¬(c > '9' ∨ c < '0') := fun hab => h ⟨hab, hu⟩
      obtain ⟨hn9, hn0⟩ := not_or.mp hno
      exact Or.inl ⟨h0.mp hn0, h9.mp hn9⟩
  · rintro (⟨hge, hle⟩ | hu)
    · rintro ⟨hab | hab, -⟩
      · exact absurd hle (not_le.mpr hab)
      · exact absurd hge (not_le.mpr hab)
    · rintro ⟨-, hne⟩
      exact hne hu

/-- On a text with no dot and no quote, the classifier loop never returns
early and computes exactly the u-count and the all-numeric flag. -/
theorem ttypeLoop_no_early (cs : List Char) :
    ∀ (us : Nat) (an : Bool), '.' ∉ cs → '\'' ∉ cs → '"' ∉ cs →
      ttypeLoop cs us an = some (us + numU cs, an && allNumB cs) := by
  induction cs with
  | nil =>
    intro us an _ _ _
    simp [ttypeLoop, numU, allNumB]
  | cons c rest ih =>
    intro us an hd hq1 hq2
    have hcd : c ≠ '.' := fun hc => hd (hc ▸ List.mem_cons_self c rest)
    have hcq1 : c ≠ '\'' := fun hc => hq1 (hc ▸ List.mem_cons_self c rest)
    have hcq2 : c ≠ '"' := fun hc => hq2 (hc ▸ List.mem_cons_self c rest)
    rw [ttypeLoop, if_neg hcd, if_neg (by simp [hcq1, hcq2])]
    rw [ih _ _ (fun hm => hd (List.mem_cons_of_mem c hm))
          (fun hm => hq1 (List.mem_cons_of_mem c hm))
          (fun hm => hq2 (List.mem_cons_of_mem c hm))]
    refine congrArg some (Prod.ext ?_ ?_)
    · show (if c = 'u' then us + 1 else us) + numU rest = us + numU (c :: rest)
      by_cases hu : c = 'u' <;>
        simp [numU, List.filter_cons, hu, Nat.add_comm, Nat.add_assoc, Nat.add_left_comm]
    · show ((if (c > '9' ∨ c < '0') ∧ c ≠ 'u' then false else an) && allNumB rest) =
        (an && allNumB (c :: rest))
      by_cases hP : (c > '9' ∨ c < '0') ∧ c ≠ 'u'
      · rw [if_pos hP]
        have hdp : decide ((c > '9' ∨ c < '0') ∧ c ≠ 'u') = true := decide_eq_true hP
        simp only [allNumB, List.all_cons, hdp, Bool.not_true, Bool.false_and,
          Bool.and_false]
      · rw [if_neg hP]
        have hdp : decide ((c > '9' ∨ c < '0') ∧ c ≠ 'u') = false := decide_eq_false hP
        simp only [allNumB, List.all_cons, hdp, Bool.not_false, Bool.true_and]

/-- The digit range excludes `u`. -/
theorem digit_ne_u (c : Char) (h : '0' ≤ c ∧ c ≤ '9') : c ≠ 'u' := by
  rintro rfl
  exact absurd h.2 (by decide)

/-- The all-numeric flag holds exactly when every character is a decimal
digit or `u`. -/
theorem allNumB_iff (cs : List Char) :
    allNumB cs = true ↔ ∀ c ∈ cs, ('0' ≤ c ∧ c ≤ '9') ∨ c = 'u' := by
  simp only [allNumB, List.all_eq_true, Bool.not_eq_true', decide_eq_false_iff_not]
  constructor
  · intro h c hc
    exact (not_numeric_iff c).mp (h c hc)
  · intro h c hc
    exact (not_numeric_iff c).mpr (h c hc)

/-- The u-count is zero exactly when no character is `u`. -/
theorem numU_eq_zero (cs : List Char) :
    numU cs = 0 ↔ ∀ c ∈ cs, c ≠ 'u' := by
  simp [numU, List.length_eq_zero, List.filter_eq_nil_iff]

/-- Claim C9: for a text with no dot and no quote character, the
multi-character classifier returns `TT_LITERAL` exactly when the text is
all decimal digits, or all decimal digits followed by exactly one trailing
`u`; every other such text is classified `TT_IDENTIFIER` (the classifier
returns nothing else on such texts). -/
theorem C9_many_chars_literal_iff (cs : List Char)
    (hd : '.' ∉ cs) (hq1 : '\'' ∉ cs) (hq2 : '"' ∉ cs) :
    (ttype_many_chars cs = .TT_LITERAL ↔
      (∀ c ∈ cs, '0' ≤ c ∧ c ≤ '9') ∨
      ∃ ds, (∀ c ∈ ds, '0' ≤ c ∧ c ≤ '9') ∧ cs = ds ++ ['u']) ∧
    (ttype_many_chars cs = .TT_LITERAL ∨ ttype_many_chars cs = .TT_IDENTIFIER) := by
  have hloop := ttypeLoop_no_early cs 0 true hd hq1 hq2
  have hmany : ttype_many_chars cs =
      if allNumB cs then
        if numU cs = 1 ∧ cs.getLast? = some 'u' then .TT_LITERAL
        else if numU cs = 0 then .TT_LITERAL
        else .TT_IDENTIFIER
      else .TT_IDENTIFIER := by
    rw [ttype_many_chars, hloop]
    simp only [Nat.zero_add, Bool.true_and]
  constructor
  · rw [hmany]
    constructor
    · intro hL
      split_ifs at hL with han h1 h0
      · -- all numeric, exactly one u which is the last character
        obtain ⟨hone, hlast⟩ := h1
        have hne : cs ≠ [] := by
          intro h
          rw [h] at hlast
          simp at hlast
        have hlastu : cs.getLast hne = 'u' := by
          have hg := List.getLast?_eq_getLast cs hne
          rw [hg, Option.some.injEq] at hlast
          exact hlast
        have hcs : cs.dropLast ++ ['u'] = cs := by
          rw [← hlastu]
          exact List.dropLast_append_getLast hne
        have hd0 : numU cs.dropLast = 0 := by
          have hone2 : numU (cs.dropLast ++ ['u']) = 1 := by rw [hcs]; exact hone
          have hu1 : (List.filter (fun c => decide (c = 'u')) ['u']).length = 1 := by
            decide
          simp only [numU, List.filter_append, List.length_append] at hone2 ⊢
          omega
        refine Or.inr ⟨cs.dropLast, ?_, hcs.symm⟩
        intro c hc
        have hcin : c ∈ cs := by
          rw [← hcs]
          exact List.mem_append_left _ hc
        rcases (allNumB_iff cs).mp han c hcin with hdig | hu
        · exact hdig
        · exact absurd hu ((numU_eq_zero cs.dropLast).mp hd0 c hc)
      · -- all numeric, no u: all digits
        left
        intro c hc
        rcases (allNumB_iff cs).mp han c hc with hdig | hu
        · exact hdig
        · exact absurd hu ((numU_eq_zero cs).mp h0 c hc)
    · rintro (hdigits | ⟨ds, hds, rfl⟩)
      · have han : allNumB cs = true :=
          (allNumB_iff cs).mpr fun c hc => Or.inl (hdigits c hc)
        have h0 : numU cs = 0 :=
          (numU_eq_zero cs).mpr fun c hc => digit_ne_u c (hdigits c hc)
        rw [if_pos han, if_neg (by simp [h0]), if_pos h0]
      · have han : allNumB (ds ++ ['u']) = true := (allNumB_iff _).mpr (by
          intro c hc
          rcases List.mem_append.mp hc with hc | hc
          · exact Or.inl (hds c hc)
          · simp at hc
            exact Or.inr hc)
        have hone : numU (ds ++ ['u']) = 1 := by
          have hd0 : numU ds = 0 :=
            (numU_eq_zero ds).mpr fun c hc => digit_ne_u c (hds c hc)
          have hu1 : (List.filter (fun c => decide (c = 'u')) ['u']).length = 1 := by
            decide
          simp only [numU, List.filter_append, List.length_append] at hd0 ⊢
          omega
        have hlast : (ds ++ ['u']).getLast? = some 'u' := List.getLast?_concat ds
        rw [if_pos han, if_pos ⟨hone, hlast⟩]
  · rw [hmany]
    split_ifs <;> simp

/-- Claim C9, witness: the text `12u` (no dot, no quote) is all digits plus
one trailing `u` and classifies as a literal. -/
theorem C9_many_chars_literal_iff_witness :
    (ttype_many_chars ['1', '2', 'u'] = .TT_LITERAL ↔
      (∀ c ∈ ['1', '2', 'u'], '0' ≤ c ∧ c ≤ '9') ∨
      ∃ ds, (∀ c ∈ ds, '0' ≤ c ∧ c ≤ '9') ∧ ['1', '2', 'u'] = ds ++ ['u']) ∧
    (ttype_many_chars ['1', '2', 'u'] = .TT_LITERAL ∨
      ttype_many_chars ['1', '2', 'u'] = .TT_IDENTIFIER) :=
  C9_many_chars_literal_iff ['1', '2', 'u'] (by decide) (by decide) (by decide)

/-- Claim C8: with the pushback buffer at capacity (`unlexed_count ≥ N`, in
particular holding `N` tokens), `unlex` fails with the buffer-full error —
the C guard fires before anything is written, so the lexer is unchanged —
and below capacity it pushes a copy of the token; both `unlex` and `lex`
preserve the invariant `unlexed_count ≤ N`. -/
theorem C8_pushback_bounds (N : Nat) (l : Lexer) (t : Token) :
    (N ≤ l.unlexed.length → unlex N l t = .error .PushbackBufferFull) ∧
    (l.unlexed.length < N →
      unlex N l t = .ok { l with unlexed := t :: l.unlexed }) ∧
    (l.unlexed.length ≤ N → ∀ l2, unlex N l t = .ok l2 → l2.unlexed.length ≤ N) ∧
    (l.unlexed.length ≤ N → ∀ tokLen t0 t2 l2,
      lex tokLen l t0 = .ok (t2, l2) → l2.unlexed.length ≤ N) := by
  refine ⟨?_, ?_, ?_, ?_⟩
  · intro hge
    rw [unlex, if_pos hge]
  · intro hlt
    rw [unlex, if_neg (not_le.mpr hlt)]
  · intro _ l2 h
    rw [unlex] at h
    by_cases hge : N ≤ l.unlexed.length
    · rw [if_pos hge] at h
      exact absurd h (by simp)
    · rw [if_neg hge] at h
      have hl2 : l2 = { l with unlexed := t :: l.unlexed } := by
        simp only [Except.ok.injEq] at h
        exact h.symm
      subst hl2
      have hlen : (t :: l.unlexed).length ≤ N := by
        simp only [List.length_cons]
        omega
      exact hlen
  · intro hinv tokLen t0 t2 l2 h
    exact le_trans (lex_unlexed_length tokLen l t0 t2 l2 h) hinv

/-- Claim C8, witness: a one-slot buffer already holding a token rejects a
push; with capacity 2 the same push succeeds and appends the copy. -/
theorem C8_pushback_bounds_witness :
    unlex 1 { stream := [],
              unlexed := [{ contents := ['a'], length := 1, type := .TT_LITERAL }] }
        { contents := ['b'], length := 1, type := .TT_IDENTIFIER } =
      .error .PushbackBufferFull ∧
    unlex 2 { stream := [],
              unlexed := [{ contents := ['a'], length := 1, type := .TT_LITERAL }] }
        { contents := ['b'], length := 1, type := .TT_IDENTIFIER } =
      .ok { stream := [],
            unlexed := [{ contents := ['b'], length := 1, type := .TT_IDENTIFIER },
                        { contents := ['a'], length := 1, type := .TT_LITERAL }] } := by
  have h1 := C8_pushback_bounds 1
    { stream := [],
      unlexed := [{ contents := ['a'], length := 1, type := .TT_LITERAL }] }
    { contents := ['b'], length := 1, type := .TT_IDENTIFIER }
  have h2 := C8_pushback_bounds 2
    { stream := [],
      unlexed := [{ contents := ['a'], length := 1, type := .TT_LITERAL }] }
    { contents := ['b'], length := 1, type := .TT_IDENTIFIER }
  exact ⟨h1.1 (by decide), h2.2.1 (by decide)⟩

end Jccc
